import Mathlib

/-!
Verification development for the obsidian speech plugin
(repository sources: `src/src/main.ts` and the two unnamed variants
`src/unnamed/part_000`, `src/unnamed/part_001`).

The development shallowly embeds the plugin's pure logic:

* the markup cleaner `cleanUpText` (both observed variants: the
  line-anchored heading rule of `src/src/main.ts` and the
  strip-every-`#` rule of `src/unnamed/part_001`);
* the voice selection of `getNextAudio`;
* the span selection, cursor correction and per-line loop of
  `StartSpeech`;
* the cancellation/supersession behaviour of the two `StartSpeech`
  variants, as a step relation over an explicit world of sessions.

JavaScript `String.prototype.replace` with a global regex scans left to
right, replacing each leftmost non-overlapping match.  Every regex used
by `cleanUpText` can only match a non-empty prefix at a given position,
so the scan is embedded as `replaceScanF` below, driven by a matcher
that either matches a non-empty prefix (returning the replacement text
and the remainder) or fails.  Fuel equal to the input length suffices
because every successful match consumes at least one character.
-/

/-- One step of lazy scanning for `(.*?)\)` (as in the link / url /
image regexes of `cleanUpText`): consume characters up to the first
`)`; fail at a newline (JS `.` does not match `\n`) or at end of input.
Returns the consumed group and the remainder after the `)`. -/
def scanToParen : List Char → Option (List Char × List Char)
  | [] => none
  | c :: cs =>
    if c = ')' then some ([], cs)
    else if c = '\n' then none
    else (scanToParen cs).map fun p => (c :: p.1, p.2)

/-- Matcher for `/\[([^\[\]]*)\]\((.*?)\)/` at the current position
(`src/src/main.ts` line 51, `src/unnamed/part_001` line 52).  The label
group is the maximal bracket-free run after `[`; the url group is lazy
up to the first `)`.  Returns the replacement (`$1`, the label) and the
remainder. -/
def matchLink : List Char → Option (List Char × List Char)
  | [] => none
  | c :: cs =>
    if c = '[' then
      match cs.dropWhile (fun d => d != '[' && d != ']') with
      | d :: e :: r2 =>
        if d = ']' ∧ e = '(' then
          (scanToParen r2).map fun p => (cs.takeWhile (fun d => d != '[' && d != ']'), p.2)
        else none
      | _ => none
    else none

/-- Matcher for `/\(http(.*?)\)/` at the current position
(`src/src/main.ts` line 55): literal `(http`, then lazily up to the
first `)`.  The whole match is replaced by the empty string. -/
def matchParenUrl : List Char → Option (List Char × List Char)
  | a :: b :: c :: d :: e :: cs =>
    if a = '(' ∧ b = 'h' ∧ c = 't' ∧ d = 't' ∧ e = 'p' then
      (scanToParen cs).map fun p => ([], p.2)
    else none
  | _ => none

/-- Backtracking scan for the tail `(.*?)\]\((.*?)\)` of the image
regex: find the shortest newline-free group followed by `](`, such that
a `)` closes the second lazy group; on failure at a candidate `](` the
first group absorbs the `]` and scanning continues. -/
def imgScan : List Char → Option (List Char)
  | [] => none
  | c :: cs =>
    if c = ']' then
      match cs with
      | d :: cs2 =>
        if d = '(' then
          match scanToParen cs2 with
          | some p => some p.2
          | none => imgScan cs
        else imgScan cs
      | [] => none
    else if c = '\n' then none
    else imgScan cs

/-- Matcher for `/!\[(.*?)\]\((.*?)\)/` at the current position
(`src/src/main.ts` line 57, first replace of the pair).  The match is
replaced by the empty string. -/
def matchImage : List Char → Option (List Char × List Char)
  | c :: d :: cs =>
    if c = '!' ∧ d = '[' then (imgScan cs).map fun r => ([], r)
    else none
  | _ => none

/-- Lazy scan for the tail `(.*?)\]\]` of the embed regex: shortest
newline-free group up to the first `]]`. -/
def embedScan : List Char → Option (List Char)
  | [] => none
  | c :: cs =>
    if c = ']' then
      match cs with
      | d :: cs2 => if d = ']' then some cs2 else embedScan cs
      | [] => none
    else if c = '\n' then none
    else embedScan cs

/-- Matcher for `/!\[\[(.*?)\]\]/` at the current position
(`src/src/main.ts` line 57, second replace of the pair).  The match is
replaced by the empty string. -/
def matchEmbed : List Char → Option (List Char × List Char)
  | c :: d :: e :: cs =>
    if c = '!' ∧ d = '[' ∧ e = '[' then (embedScan cs).map fun r => ([], r)
    else none
  | _ => none

/-- Global left-to-right regex replacement: at each position try the
matcher; on a match emit the replacement and resume after the match,
otherwise keep the character and move one position right.  `n` is fuel;
`n = length of the input` is exact because each match consumes at least
one character. -/
def replaceScanF (f : List Char → Option (List Char × List Char)) :
    Nat → List Char → List Char
  | _, [] => []
  | 0, s => s
  | n + 1, c :: cs =>
    match f (c :: cs) with
    | some (rep, rest) => rep ++ replaceScanF f n rest
    | none => c :: replaceScanF f n cs

/-- `text.replace(regex, repl)` for a global regex embedded as matcher `f`. -/
def replaceScan (f : List Char → Option (List Char × List Char)) (s : List Char) : List Char :=
  replaceScanF f s.length s

/-- `res.replace(/^#/gm, '')` (`src/src/main.ts` line 53): remove one
`#` at the start of each line.  The boolean tracks whether the scanner
is at a line start (start of string or just after `\n`). -/
def stripLineHashes : Bool → List Char → List Char
  | _, [] => []
  | true, c :: cs =>
    if c = '#' then stripLineHashes false cs
    else if c = '\n' then c :: stripLineHashes true cs
    else c :: stripLineHashes false cs
  | false, c :: cs =>
    if c = '\n' then c :: stripLineHashes true cs
    else c :: stripLineHashes false cs

/-- `cleanUpText` of `src/src/main.ts` (lines 50-59), on character
lists.  Rules in source order: links to label, one leading `#` per
line, parenthesized `http` urls, markdown images, wiki embeds. -/
def cleanUpTextL (t : List Char) : List Char :=
  replaceScan matchEmbed
    (replaceScan matchImage
      (replaceScan matchParenUrl
        (stripLineHashes true
          (replaceScan matchLink t))))

/-- `cleanUpText` of `src/src/main.ts` on strings. -/
def cleanUpText (s : String) : String :=
  ⟨cleanUpTextL s.data⟩

/-- `cleanUpText` of `src/unnamed/part_001` (lines 50-59), on character
lists.  Identical except that line `res.replace(/#/g, '')` removes
every `#`, anywhere in the text. -/
def cleanUpTextLatestL (t : List Char) : List Char :=
  replaceScan matchEmbed
    (replaceScan matchImage
      (replaceScan matchParenUrl
        (List.filter (fun c => c != '#')
          (replaceScan matchLink t))))

/-- `cleanUpText` of `src/unnamed/part_001` on strings. -/
def cleanUpTextLatest (s : String) : String :=
  ⟨cleanUpTextLatestL s.data⟩

/-- `c.match(/[a-zA-Z]/)` on a single code point. -/
def isEnglishChar (c : Char) : Bool :=
  ('a' ≤ c && c ≤ 'z') || ('A' ≤ c && c ≤ 'Z')

/-- `Array.from(sentence).map(c => c.match(/[a-zA-Z]/) ? 1 : 0)` summed
(`getNextAudio`, `src/src/main.ts` lines 25-26): `Array.from` iterates
code points. -/
def englishCharsSum (s : String) : Nat :=
  (s.data.map fun c => if isEnglishChar c then 1 else 0).sum

/-- JavaScript `sentence.length`: the number of UTF-16 code units, i.e.
astral-plane code points count twice. -/
def jsLength (s : String) : Nat :=
  (s.data.map fun c => if c.toNat < 65536 then 1 else 2).sum

/-- The condition `englishCharsSum / sentence.length > 0.65` of
`getNextAudio` (`src/src/main.ts` line 27), as an exact rational
comparison.  For the empty sentence JS computes `0/0 = NaN`, and
`NaN > 0.65` is false, matching `65 * 0 < 100 * 0 = False` here.  (The
double-precision comparison and the exact one agree for every string a
JS engine can represent.) -/
def englishHeuristic (s : String) : Bool :=
  65 * jsLength s < 100 * englishCharsSum s

/-- A voice profile of the host speech capability (name and language
tag), as consumed by `getNextAudio`. -/
structure Voice where
  name : String
  lang : String
deriving DecidableEq

/-- Voice chosen by `getNextAudio` (`src/src/main.ts` lines 22-29):
first the exact name match against the configured default, then, if
the English-ratio heuristic fires, the first voice with language tag
`en-US` (possibly none, overwriting the name match). -/
def chooseVoice (vs : List Voice) (code : String) (sentence : String) : Option Voice :=
  let voice := vs.find? fun v => v.name == code
  if englishHeuristic sentence then vs.find? fun v => v.lang == "en-US"
  else voice

/-- The utterance dispatched by `getNextAudio`: the sentence text, and
the `lang`/`voice` fields which are only assigned when a voice was
found (`src/src/main.ts` lines 30-33). -/
structure Utterance where
  text : String
  lang : Option String
  voice : Option Voice
deriving DecidableEq

/-- `getNextAudio(sentence, code)` (`src/src/main.ts` lines 20-39)
given the registry `vs` of `speechSynthesis.getVoices()`: builds the
utterance and dispatches it unconditionally; there is no error path and
every call produces exactly one utterance. -/
def getNextAudio (vs : List Voice) (sentence code : String) : Utterance :=
  match chooseVoice vs code sentence with
  | some v => ⟨sentence, some v.lang, some v⟩
  | none => ⟨sentence, none, none⟩

/-- An editor position `{ line, ch }`.  JS numbers may go negative in
the cursor correction (`cursor.line - lines.length + 1`), so `line` is
an integer. -/
structure Pos where
  line : Int
  ch : Nat
deriving DecidableEq

/-- JS `text.split('\n')` on character lists: always non-empty, with an
empty final element for a trailing newline. -/
def splitLines : List Char → List (List Char)
  | [] => [[]]
  | c :: cs =>
    if c = '\n' then [] :: splitLines cs
    else
      match splitLines cs with
      | l :: ls => (c :: l) :: ls
      | [] => [[c]]

/-- The document's lines (the host editor's line indexing over
`getValue()`). -/
def docLines (doc : String) : List String :=
  (splitLines doc.data).map fun l => (⟨l⟩ : String)

/-- `editor.getLine(n)`: the `n`-th line, empty outside the document. -/
def getLine (doc : String) (l : Int) : String :=
  if l < 0 then "" else (docLines doc).getD l.toNat ""

/-- Drop `n` leading characters of a string (the suffix of a line from
a column). -/
def strDrop (s : String) (n : Nat) : String :=
  ⟨s.data.drop n⟩

/-- Join lines with `\n` (inverse of `splitLines`). -/
def joinLines : List String → String
  | [] => ""
  | [l] => l
  | l :: ls => l ++ "\n" ++ joinLines ls

/-- `editor.getRange(c, endEndCursor)` where `endEndCursor` is the end
of the last line (`StartSpeech`, `src/src/main.ts` lines 74-76): the
text from position `c` to the end of the document. -/
def getRangeToEnd (doc : String) (c : Pos) : String :=
  match (docLines doc).drop c.line.toNat with
  | [] => ""
  | l :: rest => joinLines (strDrop l c.ch :: rest)

/-- Span selection of `StartSpeech` (`src/src/main.ts` lines 69-83,
`src/unnamed/part_001` lines 73-85): a non-empty selection is used
verbatim with the current cursor; otherwise a remembered cursor (set by
the speech-from-current-position command) gives the range from that
cursor to the end of the document; otherwise the whole document from
`(0, 0)`.  The boolean is `currentPos` of `src/unnamed/part_001`: true
exactly when the selection was empty. -/
def chooseSpan (doc sel : String) (cur : Pos) (remembered : Option Pos) :
    String × Pos × Bool :=
  if sel.length = 0 then
    match remembered with
    | some c => (getRangeToEnd doc c, c, true)
    | none => (doc, ⟨0, 0⟩, true)
  else (sel, cur, false)

/-- `editor.getRange(cursor, { line: cursor.line, ch: allLine.length })`
with the newlines removed (`src/src/main.ts` line 91): the text of the
cursor's line from the cursor column onward. -/
def lineFromCursor (doc : String) (c : Pos) : String :=
  strDrop (getLine doc c.line) c.ch

/-- The cursor correction of `StartSpeech` (`src/src/main.ts` lines
87-97, `src/unnamed/part_001` lines 93-103): when lines were split from
a real selection (`currentPos = false` in the latest variant) and the
first line differs from the cursor's line tail, the cursor was captured
at the end of the selection, so rewind it by `lines.length - 1` lines
and reset the column. -/
def fixCursor (doc : String) (lines : List String) (c : Pos) (currentPos : Bool) : Pos :=
  if 0 < lines.length ∧ currentPos = false then
    if lines.headD "" ≠ lineFromCursor doc c then ⟨c.line - lines.length + 1, 0⟩
    else c
  else c

/-- The uninterrupted per-line loop of `StartSpeech`
(`src/unnamed/part_001` lines 105-124) starting at loop index `i`: for
each line, the cursor target `(cursor.line + i, 0)` set before speaking
(only when `followCursor` is enabled; unconditionally in
`src/src/main.ts`) and the cleaned text handed to `getNextAudio` and
awaited.  One utterance per line, empty lines included. -/
def speechLoop (followCursor : Bool) (base : Pos) : Nat → List String → List (String × Option Pos)
  | _, [] => []
  | i, l :: rest =>
    (cleanUpTextLatest l, if followCursor then some ⟨base.line + i, 0⟩ else none) ::
      speechLoop followCursor base (i + 1) rest

/-- A full run of `StartSpeech` (`src/unnamed/part_001` lines 67-130)
that is never superseded: span selection, split on `\n`, cursor
correction, then the per-line loop.  Returns, in order, the cleaned
text of each awaited utterance together with the cursor position set
before it. -/
def startSpeechRun (doc sel : String) (cur : Pos) (remembered : Option Pos)
    (followCursor : Bool) : List (String × Option Pos) :=
  let t := chooseSpan doc sel cur remembered
  let lines := (splitLines t.1.data).map fun l => (⟨l⟩ : String)
  let base := fixCursor doc lines t.2.1 t.2.2
  speechLoop followCursor base 0 lines

/-- A speech session: the token (`curTime` captured by the loop in
`src/unnamed/part_001`, or just an identifier for the `main.ts`
variant), its lines, and the next loop index. -/
structure Session where
  token : Nat
  lines : List String
  idx : Nat
deriving DecidableEq

/-- Observable events of a session loop: an awaited vocalization of a
cleaned line, or a cursor move to a loop index, each tagged with the
emitting session's token. -/
inductive Ev where
  | vocal : Nat → String → Ev
  | curMove : Nat → Nat → Ev
deriving DecidableEq

/-- The session a recorded event belongs to. -/
def Ev.token : Ev → Nat
  | vocal t _ => t
  | curMove t _ => t

/-- Controller state of the `src/unnamed/part_001` variant:
`startedTime` (0 when idle) and the loops currently suspended at their
`await`. -/
structure World where
  cur : Nat
  sessions : List Session

/-- Commands / scheduler events: a new speak command carrying its fresh
`Date.now()` token and its split lines, the resumption of a suspended
loop at its `await` point, and the cancel command. -/
inductive Act where
  | start : Nat → List String → Act
  | stepLoop : Nat → Act
  | cancel : Act

/-- Whether an action is a mere loop resumption (no new command). -/
def Act.isStep : Act → Bool
  | stepLoop _ => true
  | _ => false

/-- The suspended loop with the given token, if any. -/
def findSession (ss : List Session) (t : Nat) : Option Session :=
  ss.find? fun s => s.token == t

/-- Remove the loop with the given token (it returned). -/
def removeSession (ss : List Session) (t : Nat) : List Session :=
  ss.filter fun s => s.token != t

/-- Advance the loop index of the session with the given token. -/
def bumpSession (ss : List Session) (t : Nat) : List Session :=
  ss.map fun s => if s.token == t then { s with idx := s.idx + 1 } else s

/-- Resumption of the loop with token `t'` in the `startedTime` variant
(`src/unnamed/part_001` lines 105-125): the loop first compares its
captured `curTime` against the live `this.startedTime` and returns
without any further effect if superseded; otherwise it sets the cursor,
cleans and vocalizes the current line; after the last line it resets
`startedTime` to 0. -/
def stepSessionLoop (w : World) (t' : Nat) : World × List Ev :=
  match findSession w.sessions t' with
  | none => (w, [])
  | some s =>
    if w.cur ≠ s.token then
      ({ w with sessions := removeSession w.sessions t' }, [])
    else
      match s.lines.get? s.idx with
      | some l =>
        ({ w with sessions := bumpSession w.sessions t' },
          [Ev.curMove t' s.idx, Ev.vocal t' (cleanUpTextLatest l)])
      | none => (⟨0, removeSession w.sessions t'⟩, [])

/-- One step of the `startedTime` variant.  `start t ls`: `StartSpeech`
cancels any prior session (`if (this.startedTime != 0)` it calls
`onCancelCallback`, which zeroes `startedTime` and cancels the audio)
and then stores its fresh token, so the controller token becomes `t`
and a new loop at index 0 joins the suspended loops.  `cancel`: the
cancel command zeroes `startedTime`.  `stepLoop`: see
`stepSessionLoop`. -/
def stepWorld (w : World) : Act → World × List Ev
  | .start t ls => (⟨t, ⟨t, ls, 0⟩ :: w.sessions⟩, [])
  | .cancel => (⟨0, w.sessions⟩, [])
  | .stepLoop t' => stepSessionLoop w t'

/-- Run a list of actions from a world, collecting emitted events in
order. -/
def runSteps {W : Type} (step : W → Act → W × List Ev) : W → List Act → W × List Ev
  | w, [] => (w, [])
  | w, a :: rest =>
    ((runSteps step (step w a).1 rest).1,
      (step w a).2 ++ (runSteps step (step w a).1 rest).2)

/-- The sessions whose token matches the controller's live token: these
are the loops whose next resumption will vocalize. -/
def activeSessions (w : World) : List Session :=
  w.sessions.filter fun s => s.token == w.cur

/-- Controller state of the `src/src/main.ts` variant: only the shared
boolean `this.speaking`. -/
structure FlagWorld where
  speaking : Bool
  sessions : List Session

/-- One step of the `src/src/main.ts` variant (lines 67-123).
`start`: `StartSpeech` just sets `this.speaking = true` (no token, no
cancellation of the prior loop) and starts a new loop.  `cancel`: the
cancel command sets `speaking` to false.  `stepLoop`: the loop body
checks `if (!this.speaking) continue;` — a false flag skips the line
but still advances the index; otherwise the line is vocalized; the
loop leaves `speaking` untouched when it ends. -/
def flagStep (w : FlagWorld) : Act → FlagWorld × List Ev
  | .start t ls => (⟨true, ⟨t, ls, 0⟩ :: w.sessions⟩, [])
  | .cancel => (⟨false, w.sessions⟩, [])
  | .stepLoop t' =>
    match findSession w.sessions t' with
    | none => (w, [])
    | some s =>
      if w.speaking = false then
        ({ w with sessions := bumpSession w.sessions t' }, [])
      else
        match s.lines.get? s.idx with
        | some l =>
          ({ w with sessions := bumpSession w.sessions t' },
            [Ev.curMove t' s.idx, Ev.vocal t' (cleanUpText l)])
        | none => ({ w with sessions := removeSession w.sessions t' }, [])

/-- A raised error object (only its `message` is consumed by the
handler). -/
structure ErrObj where
  message : String

/-- Outcome of the speak command handler: normal completion, or the
caught-and-surfaced path (`console.log(err)` plus
`new Notice(err.message)`); there is no rethrowing outcome. -/
inductive HandlerResult where
  | done : HandlerResult
  | notified : String → HandlerResult
deriving DecidableEq

/-- The top-level `try`/`catch` of `StartSpeech` (`src/src/main.ts`
lines 68 and 119-122): the whole handler body runs inside the `try`;
the `catch` logs the error and shows a notice with its message.  No
retry of the body occurs. -/
def startSpeechHandler (body : Except ErrObj Unit) : HandlerResult :=
  match body with
  | .ok _ => .done
  | .error e => .notified e.message

/-- The document of the end-to-end scenario. -/
def c7doc : String := "# Title\nHello [link](http://a.com)\n"

theorem replaceScanF_id (f : List Char → Option (List Char × List Char)) (P : Char → Prop)
    (hf : ∀ c cs, P c → (∀ d ∈ cs, P d) → f (c :: cs) = none) :
    ∀ (n : Nat) (cs : List Char), (∀ c ∈ cs, P c) → replaceScanF f n cs = cs := by
  intro n
  induction n with
  | zero => intro cs _; cases cs <;> rfl
  | succ n ih =>
    intro cs h
    cases cs with
    | nil => rfl
    | cons c cs =>
      have hc : f (c :: cs) = none :=
        hf c cs (h c (by simp)) (fun d hd => h d (by simp [hd]))
      simp [replaceScanF, hc, ih cs (fun d hd => h d (by simp [hd]))]

theorem matchLink_none (c : Char) (cs : List Char) (h : c ≠ '[') :
    matchLink (c :: cs) = none := by
  simp [matchLink, h]

theorem matchParenUrl_none (c : Char) (cs : List Char) (h : c ≠ '(') :
    matchParenUrl (c :: cs) = none := by
  rcases cs with _ | ⟨b, _ | ⟨d, _ | ⟨e, _ | ⟨g, r⟩⟩⟩⟩ <;> simp [matchParenUrl, h]

theorem matchImage_none (c : Char) (cs : List Char) (h : ∀ d ∈ cs, d ≠ '[') :
    matchImage (c :: cs) = none := by
  cases cs with
  | nil => rfl
  | cons d cs2 => simp [matchImage, h d (by simp)]

theorem matchEmbed_none (c : Char) (cs : List Char) (h : ∀ d ∈ cs, d ≠ '[') :
    matchEmbed (c :: cs) = none := by
  rcases cs with _ | ⟨d, _ | ⟨e, r⟩⟩
  · rfl
  · rfl
  · simp [matchEmbed, h d (by simp)]

theorem stripLineHashes_id :
    ∀ (cs : List Char) (b : Bool), (∀ c ∈ cs, c ≠ '#') → stripLineHashes b cs = cs := by
  intro cs
  induction cs with
  | nil => intro b _; cases b <;> rfl
  | cons c cs ih =>
    intro b h
    have hc : c ≠ '#' := h c (by simp)
    have ht : stripLineHashes true cs = cs := ih true (fun d hd => h d (by simp [hd]))
    have hf : stripLineHashes false cs = cs := ih false (fun d hd => h d (by simp [hd]))
    cases b with
    | true => by_cases hn : c = '\n' <;> simp [stripLineHashes, hc, hn, ht, hf]
    | false => by_cases hn : c = '\n' <;> simp [stripLineHashes, hn, ht, hf]

theorem cleanUpTextL_plain_id (cs : List Char)
    (h : ∀ c ∈ cs, c ≠ '#' ∧ c ≠ '[' ∧ c ≠ '(') : cleanUpTextL cs = cs := by
  have h1 : replaceScan matchLink cs = cs :=
    replaceScanF_id matchLink (fun c => c ≠ '[')
      (fun c cs2 hc _ => matchLink_none c cs2 hc) cs.length cs
      (fun c hc => (h c hc).2.1)
  have h2 : stripLineHashes true cs = cs :=
    stripLineHashes_id cs true (fun c hc => (h c hc).1)
  have h3 : replaceScan matchParenUrl cs = cs :=
    replaceScanF_id matchParenUrl (fun c => c ≠ '(')
      (fun c cs2 hc _ => matchParenUrl_none c cs2 hc) cs.length cs
      (fun c hc => (h c hc).2.2)
  have h4 : replaceScan matchImage cs = cs :=
    replaceScanF_id matchImage (fun c => c ≠ '[')
      (fun c cs2 _ hall => matchImage_none c cs2 hall) cs.length cs
      (fun c hc => (h c hc).2.1)
  have h5 : replaceScan matchEmbed cs = cs :=
    replaceScanF_id matchEmbed (fun c => c ≠ '[')
      (fun c cs2 _ hall => matchEmbed_none c cs2 hall) cs.length cs
      (fun c hc => (h c hc).2.1)
  unfold cleanUpTextL
  rw [h1, h2, h3, h4, h5]

/-- Claim C2, counterexample: `cleanUpText` is not idempotent.  The
input `"((http://x)http://y)"` loses its inner `(http...)` group on the
first pass, which exposes a fresh `(http...)` group removed only by a
second pass. -/
theorem cleanUpText_not_idempotent :
    cleanUpText (cleanUpText "((http://x)http://y)") ≠
      cleanUpText "((http://x)http://y)" := by
  decide

/-- Claim C2 (amended): `cleanUpText` is not idempotent on all strings,
but it is idempotent (indeed the identity) on every string containing
none of the markup trigger characters `#`, `[` and `(`. -/
theorem cleanUpText_idempotent_on_plain (s : String)
    (h : ∀ c ∈ s.data, c ≠ '#' ∧ c ≠ '[' ∧ c ≠ '(') :
    cleanUpText (cleanUpText s) = cleanUpText s := by
  have hs : cleanUpText s = s := by
    show (⟨cleanUpTextL s.data⟩ : String) = s
    rw [cleanUpTextL_plain_id s.data h]
  rw [hs]
  exact hs

theorem cleanUpText_idempotent_on_plain_witness :
    cleanUpText (cleanUpText "hello world") = cleanUpText "hello world" :=
  cleanUpText_idempotent_on_plain "hello world" (by decide)

/-- The strip-every-`#` variant (`src/unnamed/part_001`) is not
idempotent either: removing the `#` of `"[a]#(b)"` manufactures a link
that only the second pass rewrites. -/
theorem cleanUpTextLatest_not_idempotent :
    cleanUpTextLatest (cleanUpTextLatest "[a]#(b)") ≠
      cleanUpTextLatest "[a]#(b)" := by
  decide

/-- Claim C6: evaluation of `cleanUpText` at the failing input.  The
link rule runs before the image rule and rewrites the `[alt](url)` part
of `![alt](url)` to `alt`, so the markdown image is not removed: the
result is `"!alt text "`, not the specified `" text "`. -/
theorem cleanUpText_image_not_removed :
    cleanUpText "![alt](http://x.com/i.png) text ![[Embed]]" = "!alt text " ∧
      cleanUpText "![alt](http://x.com/i.png) text ![[Embed]]" ≠ " text " := by
  constructor <;> decide

/-- Claim C7, counterexample: the first vocalized line of the
end-to-end scenario is `" Title"` (the heading rule removes only the
`#`, keeping the following space), not `"Title"`. -/
theorem startSpeech_whole_document_counterexample :
    (startSpeechRun c7doc "" ⟨0, 0⟩ none true).map Prod.fst ≠
      ["Title", "Hello link", ""] := by
  decide

/-- Claim C7 (amended): speaking the whole document
`"# Title\nHello [link](http://a.com)\n"` vocalizes exactly the cleaned
lines `" Title"`, `"Hello link"`, `""` in that order, one awaited
utterance per line, with the cursor set to lines 0, 1, 2 in turn; the
final cursor line 2 is the last line of the three-line document. -/
theorem startSpeech_whole_document :
    startSpeechRun c7doc "" ⟨0, 0⟩ none true =
        [(" Title", some ⟨0, 0⟩), ("Hello link", some ⟨1, 0⟩), ("", some ⟨2, 0⟩)] ∧
      (docLines c7doc).length = 3 := by
  constructor <;> decide

/-- Claim C3, counterexample: the fallback condition of `getNextAudio`
is computed over JavaScript's UTF-16 `sentence.length`, not over the
number of characters.  For `"ab𝄞"` the fraction of ASCII-letter
characters is 2/3 > 0.65 (premise of the claim, first two conjuncts)
and an `en-US` voice is available (third conjunct), yet the voice
dispatched is the name-matched `zh-CN` default (last two conjuncts),
because `"ab𝄞".length` is 4 in JS (the astral `𝄞` counts twice) and
2/4 ≤ 0.65. -/
theorem getNextAudio_fallback_counterexample :
    65 * ("ab𝄞".data.length) < 100 * (("ab𝄞".data.filter fun c => isEnglishChar c).length) ∧
      "ab𝄞".data.length = 3 ∧
      (([⟨"Huihui", "zh-CN"⟩, ⟨"David", "en-US"⟩] : List Voice).find? fun v =>
          v.lang == "en-US") = some ⟨"David", "en-US"⟩ ∧
      (getNextAudio [⟨"Huihui", "zh-CN"⟩, ⟨"David", "en-US"⟩] "ab𝄞" "Huihui").voice =
        some ⟨"Huihui", "zh-CN"⟩ ∧
      (Voice.mk "Huihui" "zh-CN").lang ≠ "en-US" := by
  refine ⟨by decide, by decide, by decide, by decide, by decide⟩

/-- Claim C3 (amended): the fallback fires exactly when
`englishCharsSum / jsLength > 0.65` with `jsLength` the UTF-16 length
(equal to the character count for basic-plane sentences).  When it
fires and the registry's first `en-US` voice is `v0`, the utterance
carries `v0` regardless of the configured default name; when it does
not fire, the utterance carries the result of the exact name match. -/
theorem getNextAudio_voice_selection (vs : List Voice) (s code : String) :
    (englishHeuristic s = true →
      ∀ v0, (vs.find? fun v => v.lang == "en-US") = some v0 →
        (getNextAudio vs s code).voice = some v0 ∧ v0.lang = "en-US") ∧
    (englishHeuristic s = false →
      (getNextAudio vs s code).voice = vs.find? fun v => v.name == code) := by
  constructor
  · intro hE v0 hfind
    have hlang : v0.lang = "en-US" := by
      have := List.find?_some hfind
      simpa using this
    refine ⟨?_, hlang⟩
    simp [getNextAudio, chooseVoice, hE, hfind]
  · intro hE
    cases hname : vs.find? fun v => v.name == code <;>
      simp [getNextAudio, chooseVoice, hE, hname]

theorem getNextAudio_voice_selection_witness :
    ((getNextAudio [⟨"Huihui", "zh-CN"⟩, ⟨"David", "en-US"⟩] "abc" "Huihui").voice =
        some ⟨"David", "en-US"⟩ ∧ (Voice.mk "David" "en-US").lang = "en-US") ∧
      (getNextAudio [⟨"Huihui", "zh-CN"⟩, ⟨"David", "en-US"⟩] "你好" "Huihui").voice =
        ([⟨"Huihui", "zh-CN"⟩, ⟨"David", "en-US"⟩] : List Voice).find? (fun v =>
          v.name == "Huihui") :=
  ⟨(getNextAudio_voice_selection [⟨"Huihui", "zh-CN"⟩, ⟨"David", "en-US"⟩] "abc"
      "Huihui").1 (by decide) ⟨"David", "en-US"⟩ (by decide),
   (getNextAudio_voice_selection [⟨"Huihui", "zh-CN"⟩, ⟨"David", "en-US"⟩] "你好"
      "Huihui").2 (by decide)⟩

/-- Claim C9: the empty sentence never triggers the `en-US` fallback
(JS evaluates `0/0 = NaN` and `NaN > 0.65` is false; here `0 < 0` is
false), so the empty utterance carries exactly the voice matching the
configured default name when one exists, together with its language
tag. -/
theorem getNextAudio_empty_sentence (vs : List Voice) (code : String) (v : Voice)
    (h : (vs.find? fun u => u.name == code) = some v) :
    englishHeuristic "" = false ∧
      (getNextAudio vs "" code).voice = some v ∧
      (getNextAudio vs "" code).lang = some v.lang := by
  refine ⟨rfl, ?_, ?_⟩ <;>
    simp [getNextAudio, chooseVoice, h, show englishHeuristic "" = false from rfl]

theorem getNextAudio_empty_sentence_witness :
    englishHeuristic "" = false ∧
      (getNextAudio [⟨"A", "fr-FR"⟩] "" "A").voice = some ⟨"A", "fr-FR"⟩ ∧
      (getNextAudio [⟨"A", "fr-FR"⟩] "" "A").lang = some (Voice.mk "A" "fr-FR").lang :=
  getNextAudio_empty_sentence [⟨"A", "fr-FR"⟩] "A" ⟨"A", "fr-FR"⟩ (by decide)

/-- Claim C10: when neither the configured name nor the `en-US`
fallback matches any available voice, `getNextAudio` still dispatches
the utterance, with its `voice` and `lang` fields left unset; the
function is total, so an unknown configured voice name raises no error
and the line is still spoken. -/
theorem getNextAudio_no_voice (vs : List Voice) (s code : String)
    (h1 : (vs.find? fun v => v.name == code) = none)
    (h2 : (vs.find? fun v => v.lang == "en-US") = none) :
    getNextAudio vs s code = ⟨s, none, none⟩ := by
  cases hE : englishHeuristic s <;> simp [getNextAudio, chooseVoice, hE, h1, h2]

theorem getNextAudio_no_voice_witness :
    getNextAudio [⟨"X", "fr-FR"⟩] "abc" "Y" = ⟨"abc", none, none⟩ :=
  getNextAudio_no_voice [⟨"X", "fr-FR"⟩] "abc" "Y" (by decide) (by decide)

/-- Claim C5: the span policy of `StartSpeech`.  A non-empty selection
is used verbatim with the current cursor; an empty selection with a
remembered cursor uses the range from that cursor to the end of the
document; otherwise the whole document with starting cursor
`(0, 0)`. -/
theorem startSpeech_span_policy (doc sel : String) (cur : Pos) (rem : Option Pos) :
    (sel.length ≠ 0 → chooseSpan doc sel cur rem = (sel, cur, false)) ∧
    (sel.length = 0 → ∀ c, rem = some c →
      chooseSpan doc sel cur rem = (getRangeToEnd doc c, c, true)) ∧
    (sel.length = 0 → rem = none → chooseSpan doc sel cur rem = (doc, ⟨0, 0⟩, true)) := by
  refine ⟨fun h => ?_, fun h c hc => ?_, fun h hn => ?_⟩
  · simp [chooseSpan, h]
  · simp [chooseSpan, h, hc]
  · simp [chooseSpan, h, hn]

theorem startSpeech_span_policy_witness :
    chooseSpan "a\nbb" "sel" ⟨0, 1⟩ none = ("sel", ⟨0, 1⟩, false) ∧
      chooseSpan "a\nbb" "" ⟨0, 1⟩ (some ⟨1, 1⟩) = (getRangeToEnd "a\nbb" ⟨1, 1⟩, ⟨1, 1⟩, true) ∧
      chooseSpan "a\nbb" "" ⟨0, 1⟩ none = ("a\nbb", ⟨0, 0⟩, true) :=
  ⟨(startSpeech_span_policy "a\nbb" "sel" ⟨0, 1⟩ none).1 (by decide),
   (startSpeech_span_policy "a\nbb" "" ⟨0, 1⟩ (some ⟨1, 1⟩)).2.1 (by decide) ⟨1, 1⟩ rfl,
   (startSpeech_span_policy "a\nbb" "" ⟨0, 1⟩ none).2.2 (by decide) rfl⟩

/-- Claim C4: when a non-empty selection is used (`currentPos = false`)
and the selection's first line differs from the cursor's line truncated
from the cursor column onward, the starting cursor is corrected to line
`cursor.line - lines.length + 1`, column 0. -/
theorem fixCursor_backward_selection (doc : String) (lines : List String) (c : Pos)
    (h1 : lines ≠ [])
    (h2 : lines.headD "" ≠ lineFromCursor doc c) :
    fixCursor doc lines c false = ⟨c.line - lines.length + 1, 0⟩ := by
  have hl : 0 < lines.length := List.length_pos.mpr h1
  unfold fixCursor
  rw [if_pos ⟨hl, rfl⟩, if_pos h2]

theorem fixCursor_backward_selection_witness :
    fixCursor "aa\nbb\ncc" ["aa", "bb"] ⟨1, 2⟩ false = ⟨0, 0⟩ :=
  fixCursor_backward_selection "aa\nbb\ncc" ["aa", "bb"] ⟨1, 2⟩ (by decide) (by decide)

theorem findSession_spec (ss : List Session) (t : Nat) (s : Session)
    (h : findSession ss t = some s) : s ∈ ss ∧ s.token = t := by
  refine ⟨List.mem_of_find?_eq_some h, ?_⟩
  have := List.find?_some h
  simpa using this

theorem mem_bumpSession_token (ss : List Session) (t : Nat) (s' : Session)
    (h : s' ∈ bumpSession ss t) : ∃ s ∈ ss, s'.token = s.token := by
  unfold bumpSession at h
  rcases List.mem_map.mp h with ⟨s, hs, he⟩
  refine ⟨s, hs, ?_⟩
  by_cases hc : s.token == t <;> simp [hc] at he <;> simp [← he]

theorem mem_removeSession (ss : List Session) (t : Nat) (s' : Session)
    (h : s' ∈ removeSession ss t) : s' ∈ ss :=
  List.mem_of_mem_filter h

theorem filter_token_nil (ss : List Session) (t : Nat)
    (h : ∀ s ∈ ss, s.token ≠ t) : (ss.filter fun s => s.token == t) = [] := by
  rw [List.filter_eq_nil_iff]
  intro s hs
  simpa using h s hs

theorem stepSessionLoop_spec (w : World) (t' : Nat) :
    ((stepSessionLoop w t').1.cur = w.cur ∨ (stepSessionLoop w t').1.cur = 0) ∧
    (∀ s' ∈ (stepSessionLoop w t').1.sessions, ∃ s ∈ w.sessions, s'.token = s.token) ∧
    (∀ e ∈ (stepSessionLoop w t').2, e.token = w.cur ∧ ∃ s ∈ w.sessions, s.token = w.cur) := by
  unfold stepSessionLoop
  split
  · exact ⟨Or.inl rfl, fun s' hs' => ⟨s', hs', rfl⟩, by simp⟩
  · rename_i s hf
    obtain ⟨hmem, htok⟩ := findSession_spec w.sessions t' s hf
    split
    · exact ⟨Or.inl rfl, fun s' hs' => ⟨s', mem_removeSession _ _ _ hs', rfl⟩, by simp⟩
    · rename_i hc
      have hcur : w.cur = s.token := by
        by_contra hne
        exact hc hne
      split
      · rename_i l hg
        refine ⟨Or.inl rfl, fun s' hs' => mem_bumpSession_token _ _ _ hs', ?_⟩
        intro e he
        have het : e.token = t' := by
          rcases List.mem_cons.mp he with he | he
          · simp [he, Ev.token]
          · rcases List.mem_cons.mp he with he | he
            · simp [he, Ev.token]
            · simp at he
        refine ⟨by rw [het, hcur, htok], s, hmem, ?_⟩
        rw [hcur]
      · exact ⟨Or.inr rfl, fun s' hs' => ⟨s', mem_removeSession _ _ _ hs', rfl⟩, by simp⟩

theorem runSteps_events_token (t : Nat) :
    ∀ (acts : List Act) (w : World),
      (∀ a ∈ acts, a.isStep = true) →
      (w.cur = t ∨ w.cur = 0) →
      (∀ s ∈ w.sessions, s.token ≠ 0) →
      ∀ e ∈ (runSteps stepWorld w acts).2, e.token = t := by
  intro acts
  induction acts with
  | nil => intro w _ _ _ e he; simp [runSteps] at he
  | cons a rest ih =>
    intro w hacts hcur hnz e he
    have ha := hacts a (by simp)
    cases a with
    | start t' ls => simp [Act.isStep] at ha
    | cancel => simp [Act.isStep] at ha
    | stepLoop t' =>
      have hspec := stepSessionLoop_spec w t'
      have hw : stepWorld w (Act.stepLoop t') = stepSessionLoop w t' := rfl
      rw [runSteps, hw] at he
      rcases List.mem_append.mp he with h1 | h2
      · obtain ⟨het, s, hs, hst⟩ := hspec.2.2 e h1
        have : w.cur ≠ 0 := by
          rw [← hst]
          exact hnz s hs
        rcases hcur with hcur | hcur
        · rw [het, hcur]
        · exact absurd hcur this
      · refine ih (stepSessionLoop w t').1
          (fun a' ha' => hacts a' (by simp [ha'])) ?_ ?_ e h2
        · rcases hspec.1 with h | h
          · rw [h]; exact hcur
          · exact Or.inr h
        · intro s' hs'
          obtain ⟨s, hs, hst⟩ := hspec.2.1 s' hs'
          rw [hst]
          exact hnz s hs

theorem start_active_count (w : World) (t : Nat) (ls : List String)
    (hfr : ∀ s ∈ w.sessions, s.token ≠ t) :
    (activeSessions (stepWorld w (Act.start t ls)).1).length = 1 := by
  have hw : (stepWorld w (Act.start t ls)).1 = ⟨t, ⟨t, ls, 0⟩ :: w.sessions⟩ := rfl
  rw [hw]
  unfold activeSessions
  show ((⟨t, ls, 0⟩ :: w.sessions).filter fun s => s.token == t).length = 1
  rw [List.filter_cons_of_pos (by simp), filter_token_nil w.sessions t hfr]
  rfl

/-- Claim C1 (amended): in the `startedTime`-token variant of
`StartSpeech` (`src/unnamed/part_001`), starting a new speak command
with a fresh non-zero token `t` supersedes any prior session: exactly
one session (the new one) is active afterwards, and however the
suspended loops are subsequently resumed, every vocalization and every
cursor move emitted belongs to the new session — no line of a
superseded session is vocalized and no superseded loop advances the
cursor. -/
theorem startSpeech_supersedes (w : World) (t : Nat) (ls : List String) (acts : List Act)
    (ht : t ≠ 0)
    (hfr : ∀ s ∈ w.sessions, s.token ≠ t)
    (hnz : ∀ s ∈ w.sessions, s.token ≠ 0)
    (hacts : ∀ a ∈ acts, a.isStep = true) :
    (activeSessions (stepWorld w (Act.start t ls)).1).length = 1 ∧
      ∀ e ∈ (runSteps stepWorld (stepWorld w (Act.start t ls)).1 acts).2, e.token = t := by
  refine ⟨start_active_count w t ls hfr, ?_⟩
  refine runSteps_events_token t acts (stepWorld w (Act.start t ls)).1 hacts (Or.inl rfl) ?_
  intro s hs
  have hw : (stepWorld w (Act.start t ls)).1 = ⟨t, ⟨t, ls, 0⟩ :: w.sessions⟩ := rfl
  rw [hw] at hs
  rcases List.mem_cons.mp hs with hs | hs
  · rw [hs]
    exact ht
  · exact hnz s hs

theorem startSpeech_supersedes_witness :
    (activeSessions (stepWorld ⟨5, [⟨5, ["hello", "world"], 1⟩]⟩ (Act.start 9 ["new"])).1).length = 1 ∧
      ∀ e ∈ (runSteps stepWorld (stepWorld ⟨5, [⟨5, ["hello", "world"], 1⟩]⟩
          (Act.start 9 ["new"])).1 [Act.stepLoop 5, Act.stepLoop 9, Act.stepLoop 5]).2,
        e.token = 9 :=
  startSpeech_supersedes ⟨5, [⟨5, ["hello", "world"], 1⟩]⟩ 9 ["new"]
    [Act.stepLoop 5, Act.stepLoop 9, Act.stepLoop 5]
    (by decide) (by decide) (by decide) (by decide)

/-- Claim C1, counterexample: in the boolean-flag variant of
`StartSpeech` (`src/src/main.ts`), starting a new speak command does
not invalidate the prior loop — it only sets `this.speaking = true`,
which the old loop's `if (!this.speaking) continue;` check still
passes.  Concretely, with session 5 mid-speech, after a new command
starts session 9, resuming session 5 still vocalizes its line `"a"`:
a line of the superseded session is vocalized after the new session
started. -/
theorem startSpeech_supersedes_counterexample :
    Ev.vocal 5 "a" ∈
      (runSteps flagStep (flagStep ⟨true, [⟨5, ["a", "b"], 0⟩]⟩ (Act.start 9 ["x"])).1
        [Act.stepLoop 5]).2 := by
  decide

/-- Claim C8: the speak handler's `try`/`catch` maps every raised error
to the logged-and-notified outcome carrying the error's message, every
handler outcome is either normal completion or a notification (nothing
escapes, nothing is retried), and from any controller state — in
particular one left over by a failed run — a fresh speak command again
yields exactly one active session. -/
theorem startSpeech_error_handling (e : ErrObj) (w : World) (t : Nat) (ls : List String)
    (hfr : ∀ s ∈ w.sessions, s.token ≠ t) :
    startSpeechHandler (Except.error e) = HandlerResult.notified e.message ∧
      (∀ b : Except ErrObj Unit, startSpeechHandler b = HandlerResult.done ∨
        ∃ m, startSpeechHandler b = HandlerResult.notified m) ∧
      (activeSessions (stepWorld w (Act.start t ls)).1).length = 1 := by
  refine ⟨rfl, ?_, start_active_count w t ls hfr⟩
  intro b
  cases b with
  | ok _ => exact Or.inl rfl
  | error er => exact Or.inr ⟨er.message, rfl⟩

theorem startSpeech_error_handling_witness :
    startSpeechHandler (Except.error ⟨"boom"⟩) = HandlerResult.notified (ErrObj.mk "boom").message ∧
      (∀ b : Except ErrObj Unit, startSpeechHandler b = HandlerResult.done ∨
        ∃ m, startSpeechHandler b = HandlerResult.notified m) ∧
      (activeSessions (stepWorld ⟨5, [⟨5, ["a"], 1⟩]⟩ (Act.start 7 ["x"])).1).length = 1 :=
  startSpeech_error_handling ⟨"boom"⟩ ⟨5, [⟨5, ["a"], 1⟩]⟩ 7 ["x"] (by decide)
